import Mathlib

/-!
A shallow embedding, in Lean 4, of `scripts/render.py`: the text-wrapping
routine `wrap_lines` (together with the algorithm of Python's
`textwrap.wrap` that it delegates to), the document parser
`parse_markdown`, the font loader `load_font`, the pipeline `build_video`
and the CLI entry point `main`, followed by theorems settling the frozen
claims about them.

Python strings are modeled as `List Char`, Python `int` as `Int` (widths
never overflow here), `float` style values as `ℚ`, and exceptions as
`Except PyError`.  External collaborators (PIL, moviepy, yaml, the file
system) are modeled by oracles carried in an `Env` record; the code under
`scripts/render.py` itself is translated statement by statement.
-/

namespace Render

/-- Python exceptions, to the granularity `main` distinguishes them:
`FileNotFoundError`, `ValueError`, and everything else. -/
inductive PyError where
  | fileNotFound (msg : String)
  | valueError (msg : String)
  | otherError (msg : String)
deriving DecidableEq

instance {ε α : Type} [DecidableEq ε] [DecidableEq α] : DecidableEq (Except ε α) := fun x y =>
  match x, y with
  | .ok a, .ok b => decidable_of_iff (a = b) (by simp)
  | .error e, .error f => decidable_of_iff (e = f) (by simp)
  | .ok _, .error _ => .isFalse (fun h => Except.noConfusion h)
  | .error _, .ok _ => .isFalse (fun h => Except.noConfusion h)

/-! ### Character classes and `str` primitives -/

/-- The six characters of `textwrap._whitespace` (`' \t\n\r\x0b\x0c'`):
exactly these are translated to `' '` by `_munge_whitespace`. -/
def translateWS : List Char := [' ', '\t', '\n', '\x0b', '\x0c', '\r']

def isTranslateWS (c : Char) : Bool := translateWS.contains c

/-- Python's unicode whitespace class: the characters accepted by
`str.isspace`, stripped by `str.strip()`, and matched by `\s` in a `str`
regular expression (so the class `wordsep_re` breaks runs on). -/
def isPySpace (c : Char) : Bool :=
  let n := c.toNat
  (decide (0x9 ≤ n) && decide (n ≤ 0xd)) ||
  (decide (0x1c ≤ n) && decide (n ≤ 0x1f)) ||
  n == 0x20 || n == 0x85 || n == 0xa0 || n == 0x1680 ||
  (decide (0x2000 ≤ n) && decide (n ≤ 0x200a)) ||
  n == 0x2028 || n == 0x2029 || n == 0x202f || n == 0x205f || n == 0x3000

/-- Python `s.strip()`: remove leading and trailing unicode whitespace. -/
def pyStrip (s : List Char) : List Char :=
  ((s.dropWhile isPySpace).reverse.dropWhile isPySpace).reverse

/-- Python `s.expandtabs(tabsize)` (column-tracking: a tab becomes spaces up
to the next multiple of `tabsize`; `'\n'` and `'\r'` reset the column). -/
def expandtabsGo (tabsize : Nat) : List Char → Nat → List Char
  | [], _ => []
  | c :: rest, col =>
    if c = '\t' then
      (if tabsize = 0 then [] else List.replicate (tabsize - col % tabsize) ' ') ++
        expandtabsGo tabsize rest (if tabsize = 0 then col else col + (tabsize - col % tabsize))
    else if c = '\n' ∨ c = '\r' then
      c :: expandtabsGo tabsize rest 0
    else
      c :: expandtabsGo tabsize rest (col + 1)

def expandtabs (tabsize : Nat) (s : List Char) : List Char := expandtabsGo tabsize s 0

/-! ### `textwrap.TextWrapper` with the default settings used by `wrap_lines`
(`expand_tabs=True`, `tabsize=8`, `replace_whitespace=True`,
`drop_whitespace=True`, `break_long_words=True`, `break_on_hyphens=True`,
empty indents, `max_lines=None`). -/

/-- `TextWrapper._munge_whitespace`: expand tabs, then translate each of the
six ASCII whitespace characters to a space. -/
def mungeWhitespace (text : List Char) : List Char :=
  (expandtabs 8 text).map (fun c => if isTranslateWS c then ' ' else c)

/-- Helper for `textSplit`: collect the current maximal run (whose characters
all have whitespace-class `b`), accumulated reversed in `acc`. -/
def splitRunsGo (b : Bool) (acc : List Char) : List Char → List (List Char)
  | [] => [acc.reverse]
  | c :: cs =>
    if isPySpace c = b then splitRunsGo b (c :: acc) cs
    else acc.reverse :: splitRunsGo (isPySpace c) [c] cs

/-- `TextWrapper._split`: chop the munged text into chunks, each wholly
whitespace or whitespace-free.  Modeled as maximal runs of the two classes;
the real `wordsep_re` additionally splits a whitespace-free run after
certain hyphens and around em-dashes.  Every property proved below depends
only on the run structure both splitters guarantee (chunks concatenate to
the text, and each chunk is all-whitespace or whitespace-free), and the
concrete inputs evaluated in the theorems contain no hyphen, where the two
splitters agree. -/
def textSplit : List Char → List (List Char)
  | [] => []
  | c :: cs => splitRunsGo (isPySpace c) [c] cs

/-- The inner `while chunks:` loop of `_wrap_chunks`: greedily move whole
chunks onto the current line while the line stays within `width`.  Returns
the remaining chunks, the current line, and its length.  (Python keeps the
chunk stack reversed and pops from its end; here the next chunk is the
head.) -/
def fillLine (width : Nat) : List (List Char) → List (List Char) → Nat →
    List (List Char) × List (List Char) × Nat
  | [], curLine, curLen => ([], curLine, curLen)
  | ch :: rest, curLine, curLen =>
    if curLen + ch.length ≤ width then
      fillLine width rest (curLine ++ [ch]) (curLen + ch.length)
    else
      (ch :: rest, curLine, curLen)

/-- Python `chunk.rfind('-', 0, hi)`: the largest index `i < hi` with
`chunk[i] = '-'`, or `none` (Python returns `-1`). -/
def rfindHyphen (chunk : List Char) (hi : Nat) : Option Nat :=
  match (chunk.take hi).reverse.findIdx? (fun c => c = '-') with
  | some j => some ((chunk.take hi).length - 1 - j)
  | none => none

/-- The index `end` computed by `_handle_long_word`: break after the last
hyphen inside the remaining space when the chunk overflows it and the
hyphen has a non-hyphen before it; otherwise break at the remaining space. -/
def longWordEndIdx (spaceLeft : Nat) (chunk : List Char) : Nat :=
  if chunk.length > spaceLeft then
    match rfindHyphen chunk spaceLeft with
    | some hy =>
      if 0 < hy ∧ (chunk.take hy).any (fun c => c ≠ '-') then hy + 1 else spaceLeft
    | none => spaceLeft
  else spaceLeft

/-- `TextWrapper._handle_long_word` with `break_long_words=True` and
`break_on_hyphens=True`: split the head chunk, returning the piece that
goes onto the current line and the remainder that stays on the stack. -/
def handleLongWord (width curLen : Nat) (chunk : List Char) : List Char × List Char :=
  let spaceLeft := if width < 1 then 1 else width - curLen
  (chunk.take (longWordEndIdx spaceLeft chunk), chunk.drop (longWordEndIdx spaceLeft chunk))

/-- `if self.drop_whitespace and cur_line and cur_line[-1].strip() == '':
del cur_line[-1]`. -/
def dropTrailingWS (curLine : List (List Char)) : List (List Char) :=
  match curLine.getLast? with
  | some last => if pyStrip last = [] then curLine.dropLast else curLine
  | none => curLine

/-- One unit of chunk-stack size used to bound the outer loop. -/
def chunksMeasure (chunks : List (List Char)) : Nat :=
  (chunks.map List.length).sum + chunks.length

/-- The outer `while chunks:` loop of `_wrap_chunks` under the default
settings (no indents, `drop_whitespace`, `max_lines=None`, so the line is
always stored plainly).  `fuel` bounds the number of iterations;
`chunksMeasure chunks + 1` always suffices because every iteration strictly
shrinks the measure, and exhausted fuel returns the lines accumulated so
far (no theorem below depends on fuel running out). -/
def wrapChunksGo (width : Nat) : Nat → List (List Char) → List (List Char) → List (List Char)
  | _, [], lines => lines
  | 0, _ :: _, lines => lines
  | fuel + 1, c0 :: rest0, lines =>
    -- drop a leading whitespace chunk, except on the very first line
    let chunks1 := if pyStrip c0 = [] ∧ lines ≠ [] then rest0 else c0 :: rest0
    match fillLine width chunks1 [] 0 with
    | ([], curLine, _) =>
      -- every chunk fitted: emit the line (unless it vanished) and stop
      let curLine1 := dropTrailingWS curLine
      if curLine1 = [] then lines else lines ++ [curLine1.flatten]
    | (d0 :: drest, curLine, curLen) =>
      if d0.length > width then
        -- the next chunk fits on no line at all: break it
        let pr := handleLongWord width curLen d0
        let curLine1 := dropTrailingWS (curLine ++ [pr.1])
        let lines1 := if curLine1 = [] then lines else lines ++ [curLine1.flatten]
        wrapChunksGo width fuel (pr.2 :: drest) lines1
      else
        let curLine1 := dropTrailingWS curLine
        let lines1 := if curLine1 = [] then lines else lines ++ [curLine1.flatten]
        wrapChunksGo width fuel (d0 :: drest) lines1

/-- `TextWrapper._wrap_chunks`: reject non-positive widths, then run the
greedy fill. -/
def wrapChunks (width : Int) (chunks : List (List Char)) :
    Except PyError (List (List Char)) :=
  if width ≤ 0 then .error (.valueError s!"invalid width {width} (must be > 0)")
  else .ok (wrapChunksGo width.toNat (chunksMeasure chunks + 1) chunks [])

/-- `textwrap.wrap(text, width=max_chars)` with default options. -/
def textwrapWrap (text : List Char) (width : Int) : Except PyError (List (List Char)) :=
  wrapChunks width (textSplit (mungeWhitespace text))

def ellipsisChar : Char := '…'

/-- `scripts/render.py`, `wrap_lines`:
```
raw_lines = textwrap.wrap(text, width=max_chars) or [text]
if len(raw_lines) <= max_lines: return raw_lines
trimmed = raw_lines[:max_lines]
trimmed[-1] = trimmed[-1][: max(0, max_chars - 1)] + "…"
return trimmed
```
`max_lines` is modeled as `Nat` (the script always passes `2`); with
`max_lines = 0` the item assignment `trimmed[-1] = …` raises `IndexError`,
modeled as `otherError`. -/
def wrap_lines (text : List Char) (max_chars : Int) (max_lines : Nat) :
    Except PyError (List (List Char)) := do
  let wrapped ← textwrapWrap text max_chars
  let raw_lines := if wrapped = [] then [text] else wrapped
  if raw_lines.length ≤ max_lines then
    .ok raw_lines
  else
    let trimmed := raw_lines.take max_lines
    if trimmed = [] then
      .error (.otherError "IndexError: list assignment index out of range")
    else
      .ok (trimmed.dropLast ++
        [(trimmed.getLast?.getD []).take (max 0 (max_chars - 1)).toNat ++ [ellipsisChar]])

/-! ### `parse_markdown` -/

/-- Python `content.split("---")`: split at each non-overlapping occurrence
of the three-dash delimiter, scanning left to right (the first match
pattern takes priority, as Python's `str.split` takes the leftmost
occurrence). `acc` holds the current piece reversed. -/
def splitDashesGo (acc : List Char) : List Char → List (List Char)
  | '-' :: '-' :: '-' :: rest => acc.reverse :: splitDashesGo [] rest
  | c :: cs => splitDashesGo (c :: acc) cs
  | [] => [acc.reverse]

/-- `parts = content.split("---")`. -/
def mdParts (content : List Char) : List (List Char) := splitDashesGo [] content

/-- `body = "---".join(parts[2:]).strip()`. -/
def mdBody (content : List Char) : List Char :=
  pyStrip (List.intercalate ['-', '-', '-'] ((mdParts content).drop 2))

/-- Python `str.splitlines()`: split at `\n`, `\r`, `\r\n`, `\x0b`, `\x0c`,
`\x1c`, `\x1d`, `\x1e`, `\x85`, `\u2028`, `\u2029`, with no trailing empty
line for a terminal line break. -/
def isLineBoundary (c : Char) : Bool :=
  c == '\n' || c == '\r' || c == '\x0b' || c == '\x0c' || c == '\x1c' ||
  c == '\x1d' || c == '\x1e' || c == '\x85' || c == '\u2028' || c == '\u2029'

def splitlinesGo (acc : List Char) : List Char → List (List Char)
  | [] => if acc = [] then [] else [acc.reverse]
  | '\r' :: '\n' :: rest => acc.reverse :: splitlinesGo [] rest
  | c :: rest =>
    if isLineBoundary c then acc.reverse :: splitlinesGo [] rest
    else splitlinesGo (c :: acc) rest

def splitlines (s : List Char) : List (List Char) := splitlinesGo [] s

/-- The frontmatter mapping, restricted to the keys `build_video` and
`print_summary` read (`bgm`, `hashtags`); other keys are passed through
opaquely and play no part in any claim. `yaml.safe_load` itself is an
external collaborator, modeled as an oracle `List Char → Frontmatter`
(covering `safe_load(...) or {}`). -/
structure Frontmatter where
  bgm : Option (List Char)
  hashtags : Option (List (List Char))
deriving DecidableEq

def headingMarker : List Char := ['#', ' ']

def bulletMarker : List Char := ['-', ' ']

/-- The `for line in body.splitlines():` loop of `parse_markdown`, carried
out on the stripped line:
```
line = line.strip()
if not line: continue
if line.startswith("# ") and not title: title = line[2:].strip()
elif line.startswith("- "): bullets.append(line[2:].strip())
```
-/
def scanBody : List (List Char) → List Char → List (List Char) →
    List Char × List (List Char)
  | [], title, bullets => (title, bullets)
  | l :: rest, title, bullets =>
    let line := pyStrip l
    if line = [] then scanBody rest title bullets
    else if headingMarker.isPrefixOf line ∧ title = [] then
      scanBody rest (pyStrip (line.drop 2)) bullets
    else if bulletMarker.isPrefixOf line then
      scanBody rest title (bullets ++ [pyStrip (line.drop 2)])
    else scanBody rest title bullets

def msgNoFrontmatter : String := "frontmatter ブロック (---) が見つかりません"

def msgNoTitle : String := "本文に H1 見出し (# ) がありません"

def msgNoBullets : String := "箇条書き (- ) が 1 行も見つかりません"

/-- `scripts/render.py`, `parse_markdown`, applied to the file's raw text
(`md_path.read_text` is performed by the caller's environment; a decode
failure of that read is outside this signature). `safeLoad` is the
`yaml.safe_load` oracle for the metadata block: it is fallible, as the
real call is — on malformed metadata it raises (`yaml.YAMLError`, which
is none of the three malformed-document `ValueError`s), and
`parse_markdown` lets that exception propagate, between the delimiter
check and the body scan, exactly as the Python code does at line 65. -/
def parse_markdown (safeLoad : List Char → Except PyError Frontmatter)
    (content : List Char) :
    Except PyError (Frontmatter × List Char × List (List Char)) :=
  let parts := mdParts content
  if parts.length < 3 then .error (.valueError msgNoFrontmatter)
  else do
    let frontmatter ← safeLoad (parts.getD 1 [])
    let body := mdBody content
    let scanned := scanBody (splitlines body) [] []
    if scanned.1 = [] then .error (.valueError msgNoTitle)
    else if scanned.2 = [] then .error (.valueError msgNoBullets)
    else .ok (frontmatter, scanned.1, scanned.2)

/-- Spec-side vocabulary: a heading line — its stripped form begins with
`"# "`. -/
def isHeadingLine (l : List Char) : Bool := headingMarker.isPrefixOf (pyStrip l)

/-- Spec-side vocabulary: a bullet line — its stripped form begins with
`"- "`. -/
def isBulletLine (l : List Char) : Bool := bulletMarker.isPrefixOf (pyStrip l)

/-- The title contributed by a heading line: marker stripped, trimmed. -/
def headingTitle (l : List Char) : List Char := pyStrip ((pyStrip l).drop 2)

/-- The bullet contributed by a bullet line: marker stripped, trimmed. -/
def bulletText (l : List Char) : List Char := pyStrip ((pyStrip l).drop 2)

/-- The title of the first heading line, if any. -/
def firstHeadingTitle (lines : List (List Char)) : Option (List Char) :=
  (lines.find? isHeadingLine).map headingTitle

/-- All bullets of a body, in encounter order. -/
def bulletsOf (lines : List (List Char)) : List (List Char) :=
  lines.filterMap (fun l => if isBulletLine l then some (bulletText l) else none)

/-! ### Fonts, slides, video, CLI -/

/-- A PIL font object, as far as the script observes it. -/
inductive PyFont where
  | defaultFont
  | truetype (path : List Char) (size : Int)
deriving DecidableEq

/-- The style configuration, restricted to the keys `create_slide` and
`build_video` read; `none` models an absent key, and the scalars are
modeled at the type the script coerces them to (`int(...)` on integer
configuration values is the identity here, `float` values are rationals).
The parsed `config/style.yaml` is an external collaborator's output,
carried in the environment. -/
structure Config where
  size_width : Option Int
  size_height : Option Int
  safe_padding_px : Option Int
  max_chars_per_line : Option Int
  line_spacing : Option ℚ
  slide_sec : Option ℚ
  background_image : Option (List Char)
  font_title : Option (List Char)
  font_body : Option (List Char)
  fg_title : Option String
  fg_body : Option String
deriving DecidableEq

/-- The external world `render.py` interacts with: the file system and the
fallible collaborator calls, as oracles.  A `some e` outcome means the
call raises `e`; `none` means it succeeds. -/
structure Env where
  pathExists : List Char → Bool
  readFile : List Char → List Char
  configData : Config
  safeLoadFM : List Char → Except PyError Frontmatter
  truetypeErr : List Char → Int → Option PyError
  imageOpenErr : List Char → Option PyError
  audioErr : List Char → Option PyError
  writeErr : List Char → Option PyError

def configPath : List Char := "config/style.yaml".toList

/-- `scripts/render.py`, `load_config`: raise `FileNotFoundError` when the
settings file is missing, else hand back the parsed mapping
(`safe_load(fh) or {}`, the environment's `configData`). -/
def load_config (env : Env) (config_path : List Char) : Except PyError Config :=
  if env.pathExists config_path then .ok env.configData
  else
    .error (.fileNotFound ("設定ファイルが見つかりません: " ++ String.mk config_path))

/-- `scripts/render.py`, `load_font`: `None` or `""` falls back to the
default font; a `truetype` failure of any kind is caught and also falls
back to the default font.  Total: no call of it can raise. -/
def load_font (env : Env) (path : Option (List Char)) (size : Int) : PyFont :=
  match path with
  | none => .defaultFont
  | some p =>
    if p = [] then .defaultFont
    else
      match env.truetypeErr p size with
      | some _ => .defaultFont
      | none => .truetype p size

/-- The background chosen by `create_slide`. -/
inductive Background where
  | image (path : List Char)
  | white
deriving DecidableEq

/-- A composed slide, as far as the script's data flow observes it: the
resolved layout parameters, background, fonts, colors, and the wrapped
text placed on the canvas.  The `draw.text` raster calls and the pixel
coordinates are external side effects of PIL and are not modeled. -/
structure Slide where
  width : Int
  height : Int
  safePadding : Int
  background : Background
  titleFont : PyFont
  bodyFont : PyFont
  titleColor : String
  bodyColor : String
  titleLines : List (List Char)
  bulletLines : List (List Char)
deriving DecidableEq

/-- `scripts/render.py`, `create_slide`.  Config lookups use the script's
defaults; the background image is loaded when its path is set and exists
(a PIL failure there propagates); fonts load with silent fallback; title
and bullet are wrapped to at most 2 lines each (a `wrap_lines` failure
propagates, as in Python). -/
def create_slide (env : Env) (title bullet : List Char) (cfg : Config) :
    Except PyError Slide := do
  let width := cfg.size_width.getD 1080
  let height := cfg.size_height.getD 1920
  let safe_padding := cfg.safe_padding_px.getD 72
  let max_chars := cfg.max_chars_per_line.getD 22
  let background ←
    match cfg.background_image with
    | some p =>
      if p ≠ [] ∧ env.pathExists p then
        match env.imageOpenErr p with
        | some e => .error e
        | none => .ok (Background.image p)
      else .ok Background.white
    | none => .ok Background.white
  let title_font := load_font env cfg.font_title 72
  let body_font := load_font env cfg.font_body 56
  let title_color := cfg.fg_title.getD "#111111"
  let body_color := cfg.fg_body.getD "#111111"
  let title_lines ← wrap_lines title max_chars 2
  let bullet_lines ← wrap_lines bullet max_chars 2
  .ok ⟨width, height, safe_padding, background, title_font, body_font,
       title_color, body_color, title_lines, bullet_lines⟩

/-- The audio track attached to the video: source path, the fixed volume
scale applied by `volumex`, and the duration set on the clip. -/
structure Audio where
  path : List Char
  volumeScale : ℚ
  duration : ℚ
deriving DecidableEq

/-- The assembled video: the slides in order, the total duration of the
concatenation, and the optional audio track. -/
structure Video where
  slides : List Slide
  duration : ℚ
  audio : Option Audio
deriving DecidableEq

/-- Python `Path(p).with_suffix(s)`: on the last path component, drop the
extension after the final dot (when the component has one beyond its first
character) and append `s`. -/
def with_suffix (path : List Char) (suffix : List Char) : List Char :=
  let splitAt1 := path.length - (path.reverse.takeWhile (fun c => c ≠ '/')).length
  let dir := path.take splitAt1
  let base := path.drop splitAt1
  let stem :=
    if ('.' ∈ base.drop 1) then
      base.take (base.length - 1 - (base.reverse.takeWhile (fun c => c ≠ '.')).length)
    else base
  dir ++ stem ++ suffix

/-- `scripts/render.py`, `build_video`.  The written video file is an
external side effect; the `Video` value handed to `write_videofile` is
returned alongside the output path and the summary info so that theorems
can speak about it. -/
def build_video (env : Env) (md_path : List Char) :
    Except PyError (List Char × Video ×
      (List Char × Nat × ℚ × ℚ × Frontmatter)) := do
  let cfg ← load_config env configPath
  let parsed ← parse_markdown env.safeLoadFM (env.readFile md_path)
  let frontmatter := parsed.1
  let title := parsed.2.1
  let bullets := parsed.2.2
  let duration := cfg.slide_sec.getD 7
  let slides ← bullets.mapM (fun b => create_slide env title b cfg)
  -- concatenate_videoclips: total duration is the sum of the per-slide clips
  let video : Video := ⟨slides, duration * bullets.length, none⟩
  let video :=
    match frontmatter.bgm with
    | some bgm_path =>
      if bgm_path ≠ [] then
        if env.pathExists bgm_path then
          match env.audioErr bgm_path with
          | some _ => video      -- `except Exception: pass`
          | none => { video with audio := some ⟨bgm_path, 1/4, video.duration⟩ }
        else video
      else video
    | none => video
  let output_path := with_suffix md_path ".mp4".toList
  match env.writeErr output_path with
  | some e => .error e
  | none =>
    .ok (output_path, video,
      (title, bullets.length, duration, duration * bullets.length, frontmatter))

/-- `scripts/render.py`, `main`, reduced to the exit status it terminates
with (`0` models falling off the end of `main` after `print_summary`).
`argv` is the full `sys.argv`, script name included. -/
def main_exit (env : Env) (argv : List (List Char)) : Int :=
  if argv.length ≠ 2 then 1
  else
    let md_path := argv.getD 1 []
    if ¬ env.pathExists md_path then 2
    else
      match build_video env md_path with
      | .ok _ => 0
      | .error (.fileNotFound _) => 3
      | .error (.valueError _) => 4
      | .error (.otherError _) => 5

/-! ### Fixed data for the concrete evaluations in the theorems below -/

/-- The number of (non-overlapping, leftmost-first) occurrences of the
`---` delimiter in the raw text, as `str.split` counts them: one less than
the number of split parts. -/
def delimiterOccurrences (content : List Char) : Nat := (mdParts content).length - 1

/-- A `safe_load` oracle for concrete evaluations: every metadata block
parses, to a mapping with no `bgm` and no `hashtags` key. -/
def constFM : List Char → Except PyError Frontmatter := fun _ => .ok ⟨none, none⟩

/-- The document of C5's counterexample: two `---` delimiters, a heading
line and a bullet line — but its metadata block `{[` is not valid YAML. -/
def c5doc : List Char := "---\n\x7b[\n---\n# T\n- a\n".toList

/-- A `safe_load` oracle that, like the real `yaml.safe_load`, raises on
the malformed metadata block `{[` of `c5doc` (a `yaml.YAMLError` — here
a `ParserError` — which
is neither a `FileNotFoundError` nor a `ValueError`) and parses anything
else. -/
def yamlErrorSL : List Char → Except PyError Frontmatter := fun s =>
  if s = "\n\x7b[\n".toList then
    .error (.otherError "yaml.parser.ParserError: while parsing a flow mapping")
  else .ok ⟨none, none⟩

/-- A configuration with every key absent (`safe_load` of an empty or
irrelevant mapping). -/
def emptyConfig : Config :=
  ⟨none, none, none, none, none, none, none, none, none, none, none⟩

/-- A configuration whose only key sets `layout.max_chars_per_line` to 0. -/
def cfgZeroWidth : Config :=
  ⟨none, none, none, some 0, none, none, none, none, none, none, none⟩

/-- A well-formed source document. -/
def docOK : List Char := "---\nbgm: none\n---\n# T\n- a\n".toList

/-- An environment where `config/style.yaml` (parsed as `cfgZeroWidth`)
and the input `habit.md` (reading as `docOK`) exist and all collaborator
calls succeed. -/
def envZeroWidth : Env :=
  ⟨fun q => decide (q = configPath) || decide (q = "habit.md".toList),
    fun _ => docOK, cfgZeroWidth, constFM,
    fun _ _ => none, fun _ => none, fun _ => none, fun _ => none⟩

/-- An environment with the settings file, the input `habit.md`, and the
audio file `bgm.mp3` present; the document's frontmatter names that audio
file; every collaborator call succeeds. -/
def envBgm : Env :=
  ⟨fun q => decide (q = configPath) || decide (q = "habit.md".toList) ||
      decide (q = "bgm.mp3".toList),
    fun _ => "---\nx: y\n---\n# T\n- a\n".toList, emptyConfig,
    fun _ => .ok ⟨some "bgm.mp3".toList, none⟩,
    fun _ _ => none, fun _ => none, fun _ => none, fun _ => none⟩

/-- An environment whose `truetype` oracle fails on `bad.ttf` only. -/
def envFont : Env :=
  ⟨fun _ => false, fun _ => [], emptyConfig, constFM,
    fun q _ => if q = "bad.ttf".toList then some (.otherError "cannot open resource")
      else none,
    fun _ => none, fun _ => none, fun _ => none⟩

example : textwrapWrap "abcdef".toList 2 = .ok ["ab".toList, "cd".toList, "ef".toList] := by
  decide

example : textwrapWrap "aa bb cc".toList 2 = .ok ["aa".toList, "bb".toList, "cc".toList] := by
  decide

example : textwrapWrap " ab".toList 1 = .ok [" ".toList, "a".toList, "b".toList] := by
  decide

example : textwrapWrap "aa bbbbb".toList 4 = .ok ["aa b".toList, "bbbb".toList] := by
  decide

example : textwrapWrap "aa       bb".toList 4 = .ok ["aa".toList, "bb".toList] := by
  decide

example : textwrapWrap "x\ty".toList 8 = .ok ["x".toList, "y".toList] := by decide

example : textwrapWrap "   ".toList 1 = .ok [] := by decide

example : textwrapWrap "ab-cd ef".toList 4 = .ok ["ab-".toList, "cd".toList, "ef".toList] := by
  decide

example : wrap_lines "aa bb cc".toList 2 2 = .ok ["aa".toList, ['b', '…']] := by decide

/-! ### Lemmas: the greedy fill keeps every line within the width -/

lemma fillLine_sum (width : Nat) :
    ∀ (chunks cl : List (List Char)) (n : Nat), n = (cl.map List.length).sum →
      (fillLine width chunks cl n).2.2 = ((fillLine width chunks cl n).2.1.map List.length).sum
  | [], _, _, h => h
  | ch :: rest, cl, n, h => by
    by_cases hle : n + ch.length ≤ width
    · simp only [fillLine, if_pos hle]
      exact fillLine_sum width rest (cl ++ [ch]) (n + ch.length) (by simp [h])
    · simp only [fillLine, if_neg hle]; exact h

lemma fillLine_le (width : Nat) :
    ∀ (chunks cl : List (List Char)) (n : Nat), n ≤ width →
      (fillLine width chunks cl n).2.2 ≤ width
  | [], _, _, h => h
  | ch :: rest, cl, n, h => by
    by_cases hle : n + ch.length ≤ width
    · simp only [fillLine, if_pos hle]
      exact fillLine_le width rest (cl ++ [ch]) _ hle
    · simp only [fillLine, if_neg hle]; exact h

lemma flatten_dropLast_length_le :
    ∀ (l : List (List Char)), l.dropLast.flatten.length ≤ l.flatten.length
  | [] => le_refl _
  | [_] => by simp
  | a :: b :: t => by
    have ih := flatten_dropLast_length_le (b :: t)
    simp only [List.dropLast_cons₂, List.flatten_cons, List.length_append] at ih ⊢
    omega

lemma dropTrailingWS_flatten_le (cl : List (List Char)) :
    (dropTrailingWS cl).flatten.length ≤ cl.flatten.length := by
  unfold dropTrailingWS
  cases cl.getLast? with
  | none => exact le_refl _
  | some last =>
    by_cases h : pyStrip last = []
    · simp only [if_pos h]; exact flatten_dropLast_length_le cl
    · simp only [if_neg h]; exact le_refl _

lemma rfindHyphen_lt (chunk : List Char) (hi hy : Nat)
    (h : rfindHyphen chunk hi = some hy) : hy < (chunk.take hi).length := by
  unfold rfindHyphen at h
  cases e : (chunk.take hi).reverse.findIdx? (fun c => c = '-') with
  | none => rw [e] at h; exact absurd h (by simp)
  | some j =>
    rw [e] at h
    have hne : (chunk.take hi).reverse ≠ [] := by
      intro h0; rw [h0] at e; simp [List.findIdx?] at e
    have hlen : 1 ≤ (chunk.take hi).length := by
      cases e2 : chunk.take hi with
      | nil => rw [e2] at hne; simp at hne
      | cons a as => simp
    have : hy = (chunk.take hi).length - 1 - j := by
      injection h with h1; omega
    omega

lemma longWordEndIdx_le (sl : Nat) (chunk : List Char) :
    longWordEndIdx sl chunk ≤ max sl 1 := by
  unfold longWordEndIdx
  split
  next hlong =>
    split
    next hy e =>
      split
      next hc =>
        have hlt := rfindHyphen_lt chunk sl hy e
        rw [List.length_take] at hlt
        omega
      next hc => omega
    next e => omega
  next hlong => omega

lemma handleLongWord_fst_le (width curLen : Nat) (chunk : List Char)
    (hw : 1 ≤ width) (hc : curLen ≤ width) :
    curLen + (handleLongWord width curLen chunk).1.length ≤ width := by
  unfold handleLongWord
  have hnl : ¬ width < 1 := by omega
  simp only [if_neg hnl, List.length_take]
  have := longWordEndIdx_le (width - curLen) chunk
  by_cases h1 : width - curLen = 0
  · -- spaceLeft = 0: the hyphen search ranges over the empty prefix, so the
    -- index is 0 and the piece is empty
    rw [h1] at this ⊢
    have : longWordEndIdx 0 chunk ≤ 1 := by omega
    -- when spaceLeft = 0 the endIdx is 0: rfindHyphen _ 0 = none
    have h0 : longWordEndIdx 0 chunk = 0 := by
      unfold longWordEndIdx
      by_cases hl : chunk.length > 0
      · simp only [if_pos hl]
        have : rfindHyphen chunk 0 = none := by unfold rfindHyphen; simp [List.findIdx?]
        rw [this]
      · simp only [if_neg hl]
    rw [h0]; omega
  · omega

lemma wrapChunksGo_length_le (width : Nat) (hw : 1 ≤ width) :
    ∀ (fuel : Nat) (chunks lines : List (List Char)),
      (∀ l ∈ lines, l.length ≤ width) →
      ∀ l ∈ wrapChunksGo width fuel chunks lines, l.length ≤ width := by
  intro fuel
  induction fuel with
  | zero =>
    intro chunks lines hinv l hl
    cases chunks with
    | nil => exact hinv l hl
    | cons c0 rest0 => exact hinv l hl
  | succ fuel ih =>
    intro chunks lines hinv l hl
    cases chunks with
    | nil => exact hinv l hl
    | cons c0 rest0 =>
      simp only [wrapChunksGo] at hl
      set chunks1 := if pyStrip c0 = [] ∧ lines ≠ [] then rest0 else c0 :: rest0 with hc1
      split at hl
      next cl2 n2 hfl =>
        have hsum : n2 = (cl2.map List.length).sum := by
          have := fillLine_sum width chunks1 [] 0 (by simp)
          rw [hfl] at this; exact this
        have hn2 : n2 ≤ width := by
          have := fillLine_le width chunks1 [] 0 (Nat.zero_le _)
          rw [hfl] at this; exact this
        have hflat : cl2.flatten.length = n2 := by
          rw [List.length_flatten, hsum]
        by_cases hemp : dropTrailingWS cl2 = []
        · rw [if_pos hemp] at hl; exact hinv l hl
        · rw [if_neg hemp] at hl
          rcases List.mem_append.mp hl with hmem | hmem
          · exact hinv l hmem
          · have : l = (dropTrailingWS cl2).flatten := by simpa using hmem
            subst this
            calc (dropTrailingWS cl2).flatten.length
                ≤ cl2.flatten.length := dropTrailingWS_flatten_le cl2
              _ ≤ width := by omega
      next d0 drest cl2 n2 hfl =>
        have hsum : n2 = (cl2.map List.length).sum := by
          have := fillLine_sum width chunks1 [] 0 (by simp)
          rw [hfl] at this; exact this
        have hn2 : n2 ≤ width := by
          have := fillLine_le width chunks1 [] 0 (Nat.zero_le _)
          rw [hfl] at this; exact this
        have hflat : cl2.flatten.length = n2 := by
          rw [List.length_flatten, hsum]
        by_cases hlong : d0.length > width
        · rw [if_pos hlong] at hl
          refine ih _ _ ?_ l hl
          intro l' hl'
          by_cases hemp : dropTrailingWS (cl2 ++ [(handleLongWord width n2 d0).1]) = []
          · rw [if_pos hemp] at hl'; exact hinv l' hl'
          · rw [if_neg hemp] at hl'
            rcases List.mem_append.mp hl' with hmem | hmem
            · exact hinv l' hmem
            · have : l' = (dropTrailingWS (cl2 ++ [(handleLongWord width n2 d0).1])).flatten := by
                simpa using hmem
              subst this
              calc (dropTrailingWS (cl2 ++ [(handleLongWord width n2 d0).1])).flatten.length
                  ≤ (cl2 ++ [(handleLongWord width n2 d0).1]).flatten.length :=
                    dropTrailingWS_flatten_le _
                _ = n2 + (handleLongWord width n2 d0).1.length := by
                    simp [List.flatten_append, hflat]
                _ ≤ width := handleLongWord_fst_le width n2 d0 hw hn2
        · rw [if_neg hlong] at hl
          refine ih _ _ ?_ l hl
          intro l' hl'
          by_cases hemp : dropTrailingWS cl2 = []
          · rw [if_pos hemp] at hl'; exact hinv l' hl'
          · rw [if_neg hemp] at hl'
            rcases List.mem_append.mp hl' with hmem | hmem
            · exact hinv l' hmem
            · have : l' = (dropTrailingWS cl2).flatten := by simpa using hmem
              subst this
              calc (dropTrailingWS cl2).flatten.length
                  ≤ cl2.flatten.length := dropTrailingWS_flatten_le cl2
                _ ≤ width := by omega

lemma textwrapWrap_ok (t : List Char) (w : Int) (hw : 1 ≤ w) :
    textwrapWrap t w =
      .ok (wrapChunksGo w.toNat (chunksMeasure (textSplit (mungeWhitespace t)) + 1)
        (textSplit (mungeWhitespace t)) []) := by
  unfold textwrapWrap wrapChunks
  rw [if_neg (by omega)]

lemma textwrapWrap_all_le (t : List Char) (w : Int) (hw : 1 ≤ w)
    (ls : List (List Char)) (h : textwrapWrap t w = .ok ls) :
    ∀ l ∈ ls, l.length ≤ w.toNat := by
  rw [textwrapWrap_ok t w hw] at h
  injection h with h
  subst h
  exact wrapChunksGo_length_le w.toNat (by omega) _ _ [] (by simp)

/-- Once the inner `textwrap.wrap` call is known to succeed, `wrap_lines`
is the plain `or [text]` / truncation logic of `scripts/render.py`. -/
lemma wrap_lines_eq_of_wrap_ok (t : List Char) (mc : Int) (ml : Nat)
    (raw : List (List Char)) (h : textwrapWrap t mc = .ok raw) :
    wrap_lines t mc ml =
      (let raw_lines := if raw = [] then [t] else raw
       if raw_lines.length ≤ ml then .ok raw_lines
       else if raw_lines.take ml = [] then
         .error (.otherError "IndexError: list assignment index out of range")
       else .ok ((raw_lines.take ml).dropLast ++
         [((raw_lines.take ml).getLast?.getD []).take (max 0 (mc - 1)).toNat ++
           [ellipsisChar]])) := by
  unfold wrap_lines
  rw [h]
  rfl

/-- When the greedy wrap yields no lines, the `or [text]` branch fires and
the single original text is returned untouched. -/
lemma wrap_lines_eq_of_wrap_nil (t : List Char) (mc : Int) (ml : Nat)
    (h : textwrapWrap t mc = .ok []) (hml : 1 ≤ ml) :
    wrap_lines t mc ml = .ok [t] := by
  rw [wrap_lines_eq_of_wrap_ok t mc ml [] h]
  simp [hml]

/-! ### Lemmas: wholly-whitespace text produces no chunks worth a line -/

lemma pyStrip_eq_nil_of_all (s : List Char) (h : ∀ c ∈ s, isPySpace c = true) :
    pyStrip s = [] := by
  unfold pyStrip
  rw [List.dropWhile_eq_nil_iff.mpr h]
  simp

lemma expandtabsGo_all_ws :
    ∀ (s : List Char) (col : Nat), (∀ c ∈ s, isPySpace c = true) →
      ∀ c ∈ expandtabsGo 8 s col, isPySpace c = true
  | [], _, _ => by intro c hc; simp [expandtabsGo] at hc
  | c0 :: rest, col, h => by
    intro c hc
    by_cases ht : c0 = '\t'
    · rw [expandtabsGo, if_pos ht] at hc
      simp only [List.mem_append] at hc
      rcases hc with hc | hc
      · have : c = ' ' := by
          rcases List.eq_of_mem_replicate (by simpa using hc) with h1
          exact h1
        subst this; decide
      · exact expandtabsGo_all_ws rest _ (fun x hx => h x (List.mem_cons_of_mem _ hx)) c hc
    · by_cases hnl : c0 = '\n' ∨ c0 = '\r'
      · rw [expandtabsGo, if_neg ht, if_pos hnl] at hc
        rcases List.mem_cons.mp hc with hc | hc
        · rw [hc]; exact h c0 (List.mem_cons_self _ _)
        · exact expandtabsGo_all_ws rest 0 (fun x hx => h x (List.mem_cons_of_mem _ hx)) c hc
      · rw [expandtabsGo, if_neg ht, if_neg hnl] at hc
        rcases List.mem_cons.mp hc with hc | hc
        · rw [hc]; exact h c0 (List.mem_cons_self _ _)
        · exact expandtabsGo_all_ws rest _ (fun x hx => h x (List.mem_cons_of_mem _ hx)) c hc

lemma expandtabsGo_ne_nil (c0 : Char) (rest : List Char) (col : Nat) :
    expandtabsGo 8 (c0 :: rest) col ≠ [] := by
  rw [expandtabsGo]
  by_cases ht : c0 = '\t'
  · rw [if_pos ht]
    have h8 : ¬ (8 : Nat) = 0 := by decide
    rw [if_neg h8]
    have : 1 ≤ 8 - col % 8 := by have := Nat.mod_lt col (show 0 < 8 by decide); omega
    intro h
    rcases List.append_eq_nil.mp h with ⟨h1, _⟩
    rw [List.replicate_eq_nil_iff] at h1
    omega
  · by_cases hnl : c0 = '\n' ∨ c0 = '\r'
    · rw [if_neg ht, if_pos hnl]; simp
    · rw [if_neg ht, if_neg hnl]; simp

lemma mungeWhitespace_all_ws (t : List Char) (h : ∀ c ∈ t, isPySpace c = true) :
    ∀ c ∈ mungeWhitespace t, isPySpace c = true := by
  intro c hc
  unfold mungeWhitespace expandtabs at hc
  rcases List.mem_map.mp hc with ⟨c0, hc0, hceq⟩
  have hws := expandtabsGo_all_ws t 0 h c0 hc0
  by_cases htr : isTranslateWS c0
  · rw [if_pos htr] at hceq; subst hceq; decide
  · rw [if_neg htr] at hceq; subst hceq; exact hws

lemma mungeWhitespace_ne_nil (t : List Char) (h : t ≠ []) : mungeWhitespace t ≠ [] := by
  unfold mungeWhitespace expandtabs
  cases t with
  | nil => exact absurd rfl h
  | cons c0 rest =>
    intro hmap
    rw [List.map_eq_nil_iff] at hmap
    exact expandtabsGo_ne_nil c0 rest 0 hmap

lemma splitRunsGo_const :
    ∀ (cs : List Char) (b : Bool) (acc : List Char),
      (∀ c ∈ cs, isPySpace c = b) → splitRunsGo b acc cs = [acc.reverse ++ cs]
  | [], _, acc, _ => by simp [splitRunsGo]
  | c :: cs, b, acc, h => by
    have hc : isPySpace c = b := h c (List.mem_cons_self _ _)
    rw [splitRunsGo, if_pos hc]
    rw [splitRunsGo_const cs b (c :: acc) (fun x hx => h x (List.mem_cons_of_mem _ hx))]
    simp

lemma textSplit_all_ws (t : List Char) (hne : t ≠ [])
    (hws : ∀ c ∈ t, isPySpace c = true) : textSplit t = [t] := by
  cases t with
  | nil => exact absurd rfl hne
  | cons c0 rest =>
    rw [textSplit, hws c0 (List.mem_cons_self _ _),
      splitRunsGo_const rest true [c0] (fun x hx => hws x (List.mem_cons_of_mem _ hx))]
    simp

lemma wrapChunksGo_all_ws (width : Nat) :
    ∀ (fuel : Nat) (chunk : List Char), (∀ c ∈ chunk, isPySpace c = true) →
      wrapChunksGo width fuel [chunk] [] = [] := by
  intro fuel
  induction fuel with
  | zero => intro chunk _; rfl
  | succ fuel ih =>
    intro chunk hws
    have hstrip : pyStrip chunk = [] := pyStrip_eq_nil_of_all chunk hws
    rw [wrapChunksGo]
    rw [if_neg (by simp)]
    by_cases hfit : 0 + chunk.length ≤ width
    · rw [show fillLine width [chunk] [] 0 = ([], [] ++ [chunk], 0 + chunk.length) from by
        rw [fillLine, if_pos hfit]; rfl]
      simp [dropTrailingWS, hstrip]
    · rw [show fillLine width [chunk] [] 0 = ([chunk], [], 0) from by
        rw [fillLine, if_neg hfit]]
      have hlong : chunk.length > width := by omega
      simp only [if_pos hlong]
      have hpiece : pyStrip (handleLongWord width 0 chunk).1 = [] := by
        apply pyStrip_eq_nil_of_all
        intro c hc
        unfold handleLongWord at hc
        exact hws c (List.take_subset _ _ hc)
      have hline : dropTrailingWS ([] ++ [(handleLongWord width 0 chunk).1]) = [] := by
        simp [dropTrailingWS, hpiece]
      rw [hline, if_pos rfl]
      apply ih
      intro c hc
      unfold handleLongWord at hc
      exact hws c (List.drop_subset _ _ hc)

/-! ### Claims C1–C4: `wrap_lines` -/

/-- **C1.** For every text `t`, every width `w ≥ 1` and every positive line
budget `n`, `wrap_lines t w n` succeeds and returns between 1 and `n`
lines, and every returned line except possibly the last has length at most
`w`. -/
theorem claim_C1_wrap_lines_bounds (t : List Char) (w : Int) (n : Nat)
    (hw : 1 ≤ w) (hn : 1 ≤ n) :
    ∃ ls, wrap_lines t w n = .ok ls ∧ 1 ≤ ls.length ∧ ls.length ≤ n ∧
      ∀ l ∈ ls.dropLast, (l.length : Int) ≤ w := by
  obtain ⟨raw, hraw⟩ : ∃ raw, textwrapWrap t w = .ok raw :=
    ⟨_, textwrapWrap_ok t w hw⟩
  have hall : ∀ l ∈ raw, l.length ≤ w.toNat := textwrapWrap_all_le t w hw raw hraw
  by_cases hnil : raw = []
  · subst hnil
    rw [wrap_lines_eq_of_wrap_nil t w n hraw hn]
    exact ⟨[t], rfl, by simp, by simpa using hn, by simp⟩
  · rw [wrap_lines_eq_of_wrap_ok t w n raw hraw]
    simp only [if_neg hnil]
    by_cases hle : raw.length ≤ n
    · rw [if_pos hle]
      refine ⟨raw, rfl, ?_, hle, ?_⟩
      · have : raw.length ≠ 0 := by simpa [List.length_eq_zero] using hnil
        omega
      · intro l hl
        have hmem : l ∈ raw := (List.dropLast_sublist raw).subset hl
        have := hall l hmem
        omega
    · rw [if_neg hle]
      have hlen : (raw.take n).length = n := by
        rw [List.length_take]; omega
      have htr : raw.take n ≠ [] := by
        intro h; rw [h] at hlen; simp at hlen; omega
      rw [if_neg htr]
      refine ⟨_, rfl, ?_, ?_, ?_⟩
      · simp
      · rw [List.length_append, List.length_dropLast, hlen]
        simp only [List.length_cons, List.length_nil]
        omega
      · intro l hl
        rw [List.dropLast_concat] at hl
        have hmem : l ∈ raw :=
          List.take_subset n raw ((List.dropLast_sublist (raw.take n)).subset hl)
        have := hall l hmem
        omega

/-- Witness for C1 at `t = "hello world"`, `w = 5`, `n = 2`. -/
theorem claim_C1_wrap_lines_bounds_witness :
    (1 : Int) ≤ 5 ∧ 1 ≤ 2 ∧
      (∃ ls, wrap_lines "hello world".toList 5 2 = .ok ls ∧
        1 ≤ ls.length ∧ ls.length ≤ 2 ∧ ∀ l ∈ ls.dropLast, (l.length : Int) ≤ 5) :=
  ⟨by norm_num, by norm_num,
    claim_C1_wrap_lines_bounds "hello world".toList 5 2 (by norm_num) (by norm_num)⟩

/-- **C2.** Whenever the greedy wrap of `t` at width `w ≥ 1` produces more
than `n ≥ 1` lines, `wrap_lines` keeps only the first `n` of them, and the
last returned line is the `n`-th greedy line truncated to
`max 0 (w - 1)` characters with a single ellipsis character appended — so
it ends with the ellipsis marker and has length at most `w`. -/
theorem claim_C2_wrap_lines_truncation (t : List Char) (w : Int) (n : Nat)
    (raw : List (List Char)) (hw : 1 ≤ w) (hn : 1 ≤ n)
    (hraw : textwrapWrap t w = .ok raw) (hlong : n < raw.length) :
    ∃ lastLine,
      wrap_lines t w n = .ok ((raw.take n).dropLast ++ [lastLine]) ∧
      lastLine = ((raw.take n).getLast?.getD []).take (max 0 (w - 1)).toNat ++
        [ellipsisChar] ∧
      lastLine.getLast? = some ellipsisChar ∧
      (lastLine.length : Int) ≤ w := by
  rw [wrap_lines_eq_of_wrap_ok t w n raw hraw]
  have hne : raw ≠ [] := by
    intro h; rw [h] at hlong; simp at hlong
  simp only [if_neg hne]
  have hgt : ¬ raw.length ≤ n := by omega
  rw [if_neg hgt]
  have hlen : (raw.take n).length = n := by rw [List.length_take]; omega
  have htr : raw.take n ≠ [] := by
    intro h; rw [h] at hlen; simp at hlen; omega
  rw [if_neg htr]
  refine ⟨_, rfl, rfl, List.getLast?_concat _, ?_⟩
  rw [List.length_append, List.length_take]
  simp only [List.length_cons, List.length_nil]
  omega

/-- Witness for C2 at `t = "aa bb cc"`, `w = 2`, `n = 2` (the greedy wrap
is `["aa", "bb", "cc"]`, three lines). -/
theorem claim_C2_wrap_lines_truncation_witness :
    textwrapWrap "aa bb cc".toList 2 = .ok ["aa".toList, "bb".toList, "cc".toList] ∧
    2 < 3 ∧
    (∃ lastLine,
      wrap_lines "aa bb cc".toList 2 2 =
        .ok ((["aa".toList, "bb".toList, "cc".toList].take 2).dropLast ++ [lastLine]) ∧
      lastLine = ((["aa".toList, "bb".toList, "cc".toList].take 2).getLast?.getD
          []).take (max 0 ((2 : Int) - 1)).toNat ++ [ellipsisChar] ∧
      lastLine.getLast? = some ellipsisChar ∧
      (lastLine.length : Int) ≤ 2) :=
  ⟨by decide, by decide,
    claim_C2_wrap_lines_truncation "aa bb cc".toList 2 2
      ["aa".toList, "bb".toList, "cc".toList]
      (by norm_num) (by norm_num) (by decide) (by decide)⟩

/-- **C3, counterexample.** The claim states that an unbreakable text (no
whitespace break point) comes back as a single line holding the original
text; but the wrapper breaks long words, so `wrap_lines "abcdef" 2 3`
returns `["ab", "cd", "ef"]`, not `["abcdef"]`. -/
theorem claim_C3_unbreakable_counterexample :
    wrap_lines "abcdef".toList 2 3 = .ok ["ab".toList, "cd".toList, "ef".toList] ∧
    (["ab".toList, "cd".toList, "ef".toList] : List (List Char)) ≠ ["abcdef".toList] :=
  ⟨by decide, by decide⟩

/-- **C3, amended.** For every width `w ≥ 1` and budget `n ≥ 1`: if the
input text is empty, or consists wholly of whitespace (so the greedy wrap
yields no chunk that survives whitespace dropping), `wrap_lines` returns
the single-element sequence holding the original text; in particular
`wrap_lines "" w n = [""]`.  (An unbreakable text longer than `w` is
instead hard-broken into pieces of length at most `w`.) -/
theorem claim_C3_empty_or_blank_single_line (t : List Char) (w : Int) (n : Nat)
    (hw : 1 ≤ w) (hn : 1 ≤ n)
    (hblank : t = [] ∨ ∀ c ∈ t, isPySpace c = true) :
    wrap_lines t w n = .ok [t] := by
  have hwrap : textwrapWrap t w = .ok [] := by
    rw [textwrapWrap_ok t w hw]
    rcases hblank with hnil | hws
    · subst hnil; rfl
    · by_cases hnil : t = []
      · subst hnil; rfl
      · rw [textSplit_all_ws (mungeWhitespace t) (mungeWhitespace_ne_nil t hnil)
          (mungeWhitespace_all_ws t hws)]
        rw [wrapChunksGo_all_ws w.toNat _ (mungeWhitespace t) (mungeWhitespace_all_ws t hws)]
  exact wrap_lines_eq_of_wrap_nil t w n hwrap hn

/-- Witness for the amended C3 at `t = " \t "` (whitespace only), `w = 1`,
`n = 1`. -/
theorem claim_C3_empty_or_blank_single_line_witness :
    (1 : Int) ≤ 1 ∧ 1 ≤ 1 ∧ (" \t ".toList = [] ∨ ∀ c ∈ " \t ".toList, isPySpace c = true) ∧
      wrap_lines " \t ".toList 1 1 = .ok [" \t ".toList] :=
  ⟨by norm_num, by norm_num, Or.inr (by decide),
    claim_C3_empty_or_blank_single_line " \t ".toList 1 1 (by norm_num) (by norm_num)
      (Or.inr (by decide))⟩

/-- **C4, counterexample.** The claim states `wrap_lines` never fails for
`max_chars ≤ 0`; but `textwrap.wrap` raises
`ValueError: invalid width 0 (must be > 0)` before producing anything, and
`wrap_lines` does not catch it. -/
theorem claim_C4_nonpositive_width_counterexample :
    wrap_lines "ab".toList 0 2 =
      .error (.valueError "invalid width 0 (must be > 0)") := by decide

/-- **C4, amended.** For every text `t` and every `max_chars ≤ 0`,
`wrap_lines t max_chars n` fails with the `invalid width` `ValueError`
raised by `textwrap.wrap` (it does not return lines); the no-failure
guarantee holds only for `max_chars ≥ 1`. -/
theorem claim_C4_nonpositive_width_raises (t : List Char) (mc : Int) (n : Nat)
    (hmc : mc ≤ 0) :
    wrap_lines t mc n = .error (.valueError s!"invalid width {mc} (must be > 0)") := by
  unfold wrap_lines textwrapWrap wrapChunks
  rw [if_pos hmc]
  rfl

/-- Witness for the amended C4 at `t = "xy"`, `max_chars = -3`, `n = 1`. -/
theorem claim_C4_nonpositive_width_raises_witness :
    (-3 : Int) ≤ 0 ∧
      wrap_lines "xy".toList (-3) 1 =
        .error (.valueError "invalid width -3 (must be > 0)") :=
  ⟨by norm_num, claim_C4_nonpositive_width_raises "xy".toList (-3) 1 (by norm_num)⟩

/-! ### Lemmas: what `str.strip` leaves behind -/

lemma pyStrip_eq_nil_iff (s : List Char) :
    pyStrip s = [] ↔ ∀ c ∈ s, isPySpace c = true := by
  constructor
  · intro h c hc
    unfold pyStrip at h
    rw [List.reverse_eq_nil_iff, List.dropWhile_eq_nil_iff] at h
    conv_lhs at hc => rw [← List.takeWhile_append_dropWhile isPySpace s]
    rcases List.mem_append.mp hc with hc | hc
    · exact List.mem_takeWhile_imp hc
    · exact h c (by simpa using hc)
  · exact pyStrip_eq_nil_of_all s

lemma head?_dropWhile_not (p : Char → Bool) :
    ∀ (l : List Char) (c : Char), (l.dropWhile p).head? = some c → p c = false
  | [], c, h => by simp [List.dropWhile] at h
  | a :: t, c, h => by
    by_cases ha : p a
    · rw [List.dropWhile_cons_of_pos ha] at h
      exact head?_dropWhile_not p t c h
    · rw [List.dropWhile_cons_of_neg ha] at h
      injection h with h
      rw [← h]
      simpa using ha

lemma getLast?_pyStrip_not_ws (s : List Char) (h : pyStrip s ≠ []) :
    ∃ c, (pyStrip s).getLast? = some c ∧ isPySpace c = false := by
  unfold pyStrip at h ⊢
  rw [List.getLast?_reverse]
  cases e : ((s.dropWhile isPySpace).reverse.dropWhile isPySpace).head? with
  | none =>
    rw [List.head?_eq_none_iff] at e
    rw [e] at h
    simp at h
  | some c => exact ⟨c, rfl, head?_dropWhile_not isPySpace _ c e⟩

/-- If a stripped line starts with a two-character marker `mk ++ " "`, the
text after the marker strips to something non-empty (the stripped line ends
in a non-whitespace character beyond the marker's space). -/
lemma strip_drop2_ne_nil (l : List Char) (mk : Char)
    (h : List.isPrefixOf [mk, ' '] (pyStrip l) = true) :
    pyStrip ((pyStrip l).drop 2) ≠ [] := by
  rcases List.isPrefixOf_iff_prefix.mp h with ⟨rest, hrest⟩
  have hform : pyStrip l = mk :: ' ' :: rest := by rw [← hrest]; rfl
  have hne : pyStrip l ≠ [] := by rw [hform]; simp
  obtain ⟨c, hlast, hcws⟩ := getLast?_pyStrip_not_ws l hne
  rw [hform] at hlast
  cases rest with
  | nil =>
    rw [List.getLast?_cons_cons, List.getLast?_singleton] at hlast
    injection hlast with hlast
    rw [← hlast] at hcws
    exact absurd hcws (by decide)
  | cons r rs =>
    rw [hform]
    have hlast2 : (r :: rs).getLast? = some c := by
      rw [List.getLast?_cons_cons, List.getLast?_cons_cons] at hlast
      exact hlast
    intro h0
    rw [show (mk :: ' ' :: r :: rs).drop 2 = r :: rs from rfl] at h0
    rw [pyStrip_eq_nil_iff] at h0
    have := h0 c (List.mem_of_mem_getLast? hlast2)
    rw [hcws] at this
    exact Bool.false_ne_true this

/-! ### Lemmas: the body scan finds the first heading and every bullet -/

lemma headingTitle_ne_nil (l : List Char) (h : isHeadingLine l = true) :
    headingTitle l ≠ [] :=
  strip_drop2_ne_nil l '#' h

lemma bulletText_ne_nil (l : List Char) (h : isBulletLine l = true) :
    bulletText l ≠ [] :=
  strip_drop2_ne_nil l '-' h

lemma not_bullet_of_heading (l : List Char) (h : isHeadingLine l = true) :
    isBulletLine l = false := by
  unfold isHeadingLine at h
  unfold isBulletLine
  rcases List.isPrefixOf_iff_prefix.mp h with ⟨t1, ht1⟩
  by_contra hb
  rw [Bool.not_eq_false] at hb
  rcases List.isPrefixOf_iff_prefix.mp hb with ⟨t2, ht2⟩
  rw [← ht1] at ht2
  simp [bulletMarker, headingMarker] at ht2

lemma stripped_empty_not_heading (l : List Char) (h : pyStrip l = []) :
    isHeadingLine l = false := by
  unfold isHeadingLine; rw [h]; rfl

lemma stripped_empty_not_bullet (l : List Char) (h : pyStrip l = []) :
    isBulletLine l = false := by
  unfold isBulletLine; rw [h]; rfl

lemma firstHeadingTitle_cons_pos (l : List Char) (rest : List (List Char))
    (h : isHeadingLine l = true) :
    firstHeadingTitle (l :: rest) = some (headingTitle l) := by
  unfold firstHeadingTitle
  rw [List.find?_cons_of_pos rest h]
  rfl

lemma firstHeadingTitle_cons_neg (l : List Char) (rest : List (List Char))
    (h : isHeadingLine l = false) :
    firstHeadingTitle (l :: rest) = firstHeadingTitle rest := by
  unfold firstHeadingTitle
  rw [List.find?_cons_of_neg rest (by simp [h])]

lemma bulletsOf_cons_pos (l : List Char) (rest : List (List Char))
    (h : isBulletLine l = true) :
    bulletsOf (l :: rest) = bulletText l :: bulletsOf rest := by
  unfold bulletsOf
  rw [List.filterMap_cons]
  simp [h]

lemma bulletsOf_cons_neg (l : List Char) (rest : List (List Char))
    (h : isBulletLine l = false) :
    bulletsOf (l :: rest) = bulletsOf rest := by
  unfold bulletsOf
  rw [List.filterMap_cons]
  simp [h]

/-- The scan loop of `parse_markdown`, characterized: the resulting title
is the seed title if that is non-empty, else the (stripped, trimmed) first
heading line; the resulting bullets are the seed bullets followed by every
bullet line's text in encounter order. -/
lemma scanBody_spec :
    ∀ (ls : List (List Char)) (t0 : List Char) (bs0 : List (List Char)),
      scanBody ls t0 bs0 =
        ((if t0 = [] then (firstHeadingTitle ls).getD [] else t0),
          bs0 ++ bulletsOf ls)
  | [], t0, bs0 => by
    have h1 : (firstHeadingTitle []).getD [] = ([] : List Char) := rfl
    have h2 : bulletsOf [] = [] := rfl
    rw [scanBody, h1, h2, List.append_nil]
    by_cases h : t0 = []
    · rw [if_pos h, h]
    · rw [if_neg h]
  | l :: rest, t0, bs0 => by
    simp only [scanBody]
    by_cases hempty : pyStrip l = []
    · rw [if_pos hempty, scanBody_spec rest t0 bs0,
        firstHeadingTitle_cons_neg l rest (stripped_empty_not_heading l hempty),
        bulletsOf_cons_neg l rest (stripped_empty_not_bullet l hempty)]
    · rw [if_neg hempty]
      by_cases hhead : headingMarker.isPrefixOf (pyStrip l) ∧ t0 = []
      · rw [if_pos hhead, scanBody_spec rest (pyStrip ((pyStrip l).drop 2)) bs0]
        have hht : isHeadingLine l = true := hhead.1
        have hne : headingTitle l ≠ [] := headingTitle_ne_nil l hht
        rw [show pyStrip ((pyStrip l).drop 2) = headingTitle l from rfl]
        rw [if_neg hne, hhead.2, if_pos rfl,
          firstHeadingTitle_cons_pos l rest hht, Option.getD_some,
          bulletsOf_cons_neg l rest (not_bullet_of_heading l hht)]
      · rw [if_neg hhead]
        by_cases hbul : bulletMarker.isPrefixOf (pyStrip l)
        · rw [if_pos hbul, scanBody_spec rest t0 (bs0 ++ [pyStrip ((pyStrip l).drop 2)])]
          have hbt : isBulletLine l = true := hbul
          rw [show pyStrip ((pyStrip l).drop 2) = bulletText l from rfl,
            bulletsOf_cons_pos l rest hbt]
          refine Prod.ext ?_ ?_
          · by_cases ht0 : t0 = []
            · have hhf : isHeadingLine l = false := by
                by_contra hc
                rw [Bool.not_eq_false] at hc
                exact hhead ⟨hc, ht0⟩
              simp only [firstHeadingTitle_cons_neg l rest hhf]
            · simp only [if_neg ht0]
          · simp
        · rw [if_neg hbul, scanBody_spec rest t0 bs0]
          have hbf : isBulletLine l = false := by
            by_contra hc
            rw [Bool.not_eq_false] at hc
            exact hbul hc
          rw [bulletsOf_cons_neg l rest hbf]
          refine Prod.ext ?_ ?_
          · by_cases ht0 : t0 = []
            · have hhf : isHeadingLine l = false := by
                by_contra hc
                rw [Bool.not_eq_false] at hc
                exact hhead ⟨hc, ht0⟩
              simp only [firstHeadingTitle_cons_neg l rest hhf]
            · simp only [if_neg ht0]
          · rfl

/-- With no heading line the scan's title stays empty; with one it is that
line's non-empty title. -/
lemma firstHeadingTitle_getD_nil_iff (ls : List (List Char)) :
    (firstHeadingTitle ls).getD [] = [] ↔ ∀ l ∈ ls, isHeadingLine l = false := by
  unfold firstHeadingTitle
  cases e : ls.find? isHeadingLine with
  | none =>
    constructor
    · intro _ l hl
      simpa using List.find?_eq_none.mp e l hl
    · intro _
      rfl
  | some l =>
    constructor
    · intro hnil
      have hnil2 : headingTitle l = [] := hnil
      exact absurd hnil2 (headingTitle_ne_nil l (List.find?_some e))
    · intro hall
      have hfalse := hall l (List.mem_of_find?_eq_some e)
      have htrue := List.find?_some e
      rw [hfalse] at htrue
      exact absurd htrue (by simp)

lemma bulletsOf_eq_nil_iff (ls : List (List Char)) :
    bulletsOf ls = [] ↔ ∀ l ∈ ls, isBulletLine l = false := by
  unfold bulletsOf
  rw [List.filterMap_eq_nil_iff]
  constructor
  · intro h l hl
    have := h l hl
    by_cases hb : isBulletLine l
    · rw [if_pos hb] at this; exact absurd this (by simp)
    · simpa using hb
  · intro h l hl
    rw [if_neg (by simp [h l hl])]

/-! ### Lemmas: reducing `Except` pipelines -/

lemma ok_bind {α β : Type} (a : α) (f : α → Except PyError β) :
    (Except.ok a >>= f) = f a := rfl

lemma error_bind {α β : Type} (e : PyError) (f : α → Except PyError β) :
    ((Except.error e : Except PyError α) >>= f) = .error e := rfl

lemma pure_eq_ok {α : Type} (a : α) : (pure a : Except PyError α) = .ok a := rfl

/-- `parse_markdown`, characterized end to end, in the code's priority
order: too few `---` delimiters raises the missing-metadata `ValueError`;
then a `safe_load` failure on the metadata block propagates untouched
(it is not one of the malformed-document `ValueError`s); then a body with
no heading line raises the missing-title `ValueError`, a body with no
bullet line the missing-bullets one; and otherwise the document is
returned, its title from the first heading line and its bullets from the
bullet lines' texts in order. -/
lemma parse_markdown_spec (slo : List Char → Except PyError Frontmatter)
    (content : List Char) :
    parse_markdown slo content =
      if (mdParts content).length < 3 then .error (.valueError msgNoFrontmatter)
      else
        match slo ((mdParts content).getD 1 []) with
        | .error e => .error e
        | .ok fm =>
          if ∀ l ∈ splitlines (mdBody content), isHeadingLine l = false then
            .error (.valueError msgNoTitle)
          else if bulletsOf (splitlines (mdBody content)) = [] then
            .error (.valueError msgNoBullets)
          else
            .ok (fm,
              (firstHeadingTitle (splitlines (mdBody content))).getD [],
              bulletsOf (splitlines (mdBody content))) := by
  simp only [parse_markdown]
  by_cases h1 : (mdParts content).length < 3
  · rw [if_pos h1, if_pos h1]
  · rw [if_neg h1, if_neg h1]
    cases hsl : slo ((mdParts content).getD 1 []) with
    | error e => simp only [hsl, error_bind]
    | ok fm =>
      simp only [hsl, ok_bind]
      rw [scanBody_spec (splitlines (mdBody content)) [] []]
      simp only [eq_self_iff_true, if_true, List.nil_append]
      by_cases h2 : ∀ l ∈ splitlines (mdBody content), isHeadingLine l = false
      · rw [if_pos ((firstHeadingTitle_getD_nil_iff _).mpr h2), if_pos h2]
      · rw [if_neg (fun hc => h2 ((firstHeadingTitle_getD_nil_iff _).mp hc)), if_neg h2]

lemma mapM_ok {β : Type} (f : List Char → Except PyError β) :
    ∀ (bs : List (List Char)), (∀ b ∈ bs, ∃ s, f b = .ok s) →
      ∃ ss, bs.mapM f = .ok ss
  | [], _ => ⟨[], rfl⟩
  | b :: bs, h => by
    obtain ⟨s, hs⟩ := h b (List.mem_cons_self _ _)
    obtain ⟨ss, hss⟩ := mapM_ok f bs (fun x hx => h x (List.mem_cons_of_mem _ hx))
    refine ⟨s :: ss, ?_⟩
    rw [List.mapM_cons]
    simp only [hs, hss, ok_bind, pure_eq_ok]

lemma mapM_error_head {β : Type} (f : List Char → Except PyError β)
    (b : List Char) (bs : List (List Char)) (e : PyError) (h : f b = .error e) :
    (b :: bs).mapM f = .error e := by
  rw [List.mapM_cons]
  simp only [h, error_bind]

/-! ### Claims C5, C6, C10: `parse_markdown` -/

/-- **C5, counterexample.** `parse_markdown` does *not* fail only in the
three malformed-document cases: `yaml.safe_load` on the metadata block is
a fourth error source.  On `c5doc` — which has two `---` delimiters, a
heading line and a bullet line, so none of the claim's three conditions
hold — the `safe_load` of the malformed block `{[` raises, the exception
propagates out of `parse_markdown`, and it is not of the
malformed-document (`ValueError`) kind. -/
theorem claim_C5_yaml_error_counterexample :
    parse_markdown yamlErrorSL c5doc =
      .error (.otherError "yaml.parser.ParserError: while parsing a flow mapping") ∧
    ¬ (mdParts c5doc).length < 3 ∧
    (∃ l ∈ splitlines (mdBody c5doc), isHeadingLine l = true) ∧
    (∃ l ∈ splitlines (mdBody c5doc), isBulletLine l = true) :=
  ⟨by decide, by decide, by decide, by decide⟩

/-- **C5, amended.** `parse_markdown` fails with the three
malformed-document `ValueError`s exactly in these cases, in the code's
priority order — fewer than two occurrences of the `---` delimiter
(missing metadata block), a body with no heading line (missing title), a
body with no bullet line (missing bullets) — *provided the metadata block
parses*: a `yaml.safe_load` failure on the block (checked after the
delimiter count, before the body scan) propagates as-is and is none of
the three; otherwise the parsed document is returned.  (The file read at
line 61 is performed by the caller's environment here; a decode failure
of that read is likewise outside this taxonomy.) -/
theorem claim_C5_parse_markdown_error_cases
    (slo : List Char → Except PyError Frontmatter) (content : List Char) :
    parse_markdown slo content =
      if delimiterOccurrences content < 2 then
        .error (.valueError msgNoFrontmatter)
      else
        match slo ((mdParts content).getD 1 []) with
        | .error e => .error e
        | .ok fm =>
          if ∀ l ∈ splitlines (mdBody content), isHeadingLine l = false then
            .error (.valueError msgNoTitle)
          else if bulletsOf (splitlines (mdBody content)) = [] then
            .error (.valueError msgNoBullets)
          else
            .ok (fm,
              (firstHeadingTitle (splitlines (mdBody content))).getD [],
              bulletsOf (splitlines (mdBody content))) := by
  rw [parse_markdown_spec]
  have hiff : delimiterOccurrences content < 2 ↔ (mdParts content).length < 3 := by
    unfold delimiterOccurrences; omega
  by_cases h1 : (mdParts content).length < 3
  · rw [if_pos h1, if_pos (hiff.mpr h1)]
  · rw [if_neg h1, if_neg (fun hc => h1 (hiff.mp hc))]

/-- **C6.** Whenever `parse_markdown` succeeds, the returned title is the
content of the first line whose stripped form begins with `"# "`, with the
marker dropped and surrounding whitespace trimmed; later heading lines do
not affect it (`find?` returns the first match). -/
theorem claim_C6_title_is_first_heading
    (slo : List Char → Except PyError Frontmatter)
    (content : List Char) (fm : Frontmatter) (t : List Char)
    (bs : List (List Char))
    (h : parse_markdown slo content = .ok (fm, t, bs)) :
    ∃ l, (splitlines (mdBody content)).find? isHeadingLine = some l ∧
      t = pyStrip ((pyStrip l).drop 2) := by
  rw [parse_markdown_spec] at h
  by_cases h1 : (mdParts content).length < 3
  · rw [if_pos h1] at h; exact absurd h (by simp)
  · rw [if_neg h1] at h
    split at h
    · exact absurd h (by simp)
    by_cases h2 : ∀ l ∈ splitlines (mdBody content), isHeadingLine l = false
    · rw [if_pos h2] at h; exact absurd h (by simp)
    · rw [if_neg h2] at h
      by_cases h3 : bulletsOf (splitlines (mdBody content)) = []
      · rw [if_pos h3] at h; exact absurd h (by simp)
      · rw [if_neg h3] at h
        injection h with h
        have hfind : (splitlines (mdBody content)).find? isHeadingLine ≠ none := by
          intro hc
          exact h2 (fun l hl => by simpa using List.find?_eq_none.mp hc l hl)
        obtain ⟨l, hl⟩ := Option.ne_none_iff_exists'.mp hfind
        refine ⟨l, hl, ?_⟩
        have ht : t = (firstHeadingTitle (splitlines (mdBody content))).getD [] :=
          (congrArg (fun p => p.2.1) h).symm
        rw [ht]
        unfold firstHeadingTitle
        rw [hl]
        rfl

/-- Witness for C6: a document whose body has two heading lines; the title
is the first one's. -/
theorem claim_C6_title_is_first_heading_witness :
    parse_markdown constFM "---\nk: v\n---\n# A\n# B\n- c\n".toList =
      .ok (⟨none, none⟩, "A".toList, ["c".toList]) ∧
    (∃ l, (splitlines (mdBody "---\nk: v\n---\n# A\n# B\n- c\n".toList)).find?
        isHeadingLine = some l ∧
      "A".toList = pyStrip ((pyStrip l).drop 2)) :=
  ⟨by decide,
    claim_C6_title_is_first_heading constFM "---\nk: v\n---\n# A\n# B\n- c\n".toList
      ⟨none, none⟩ "A".toList ["c".toList] (by decide)⟩

/-- **C10, counterexample.** A body line `"- "` (bullet marker followed
only by whitespace) is *not* accepted as a bullet: the line is stripped to
`"-"` before the marker test, so it contributes nothing — the parse of a
document with bullet lines `"- "` and `"- x"` yields bullets `["x"]`, not
`["", "x"]`. -/
theorem claim_C10_blank_bullet_counterexample :
    parse_markdown constFM "---\na: 1\n---\n# T\n- \n- x\n".toList =
      .ok (⟨none, none⟩, "T".toList, ["x".toList]) ∧
    (["x".toList] : List (List Char)) ≠ [[], "x".toList] :=
  ⟨by decide, by decide⟩

/-- **C10, amended.** A body line consisting of the bullet marker followed
only by whitespace is ignored (its stripped form `"-"` does not start with
`"- "`); on success the bullets sequence is non-empty and, because every
accepted bullet line's stripped form ends in a non-whitespace character
past the marker, every individual bullet string is non-empty as well. -/
theorem claim_C10_bullets_nonempty
    (slo : List Char → Except PyError Frontmatter)
    (content : List Char) (fm : Frontmatter) (t : List Char)
    (bs : List (List Char))
    (h : parse_markdown slo content = .ok (fm, t, bs)) :
    bs ≠ [] ∧ ∀ b ∈ bs, b ≠ [] := by
  rw [parse_markdown_spec] at h
  by_cases h1 : (mdParts content).length < 3
  · rw [if_pos h1] at h; exact absurd h (by simp)
  · rw [if_neg h1] at h
    split at h
    · exact absurd h (by simp)
    by_cases h2 : ∀ l ∈ splitlines (mdBody content), isHeadingLine l = false
    · rw [if_pos h2] at h; exact absurd h (by simp)
    · rw [if_neg h2] at h
      by_cases h3 : bulletsOf (splitlines (mdBody content)) = []
      · rw [if_pos h3] at h; exact absurd h (by simp)
      · rw [if_neg h3] at h
        injection h with h
        have hbs : bs = bulletsOf (splitlines (mdBody content)) :=
          (congrArg (fun p => p.2.2) h).symm
        subst hbs
        refine ⟨h3, ?_⟩
        intro b hb
        rcases List.mem_filterMap.mp hb with ⟨l, _, heq⟩
        by_cases hbl : isBulletLine l
        · rw [if_pos hbl] at heq
          injection heq with heq
          rw [← heq]
          exact bulletText_ne_nil l hbl
        · rw [if_neg hbl] at heq
          exact absurd heq (by simp)

/-- Witness for the amended C10 on a concrete well-formed document. -/
theorem claim_C10_bullets_nonempty_witness :
    parse_markdown constFM "---\na: 1\n---\n# T\n- \n- x\n".toList =
      .ok (⟨none, none⟩, "T".toList, ["x".toList]) ∧
    (["x".toList] : List (List Char)) ≠ [] ∧
    ∀ b ∈ (["x".toList] : List (List Char)), b ≠ [] := by
  refine ⟨by decide, ?_, ?_⟩
  · exact (claim_C10_bullets_nonempty constFM "---\na: 1\n---\n# T\n- \n- x\n".toList
      ⟨none, none⟩ "T".toList ["x".toList] (by decide)).1
  · exact (claim_C10_bullets_nonempty constFM "---\na: 1\n---\n# T\n- \n- x\n".toList
      ⟨none, none⟩ "T".toList ["x".toList] (by decide)).2

/-! ### Lemmas: when the pipeline stages succeed or fail -/

/-- With a positive width and a positive line budget, `wrap_lines` always
returns lines. -/
lemma wrap_lines_ok (t : List Char) (mc : Int) (ml : Nat)
    (hmc : 1 ≤ mc) (hml : 1 ≤ ml) :
    ∃ ls, wrap_lines t mc ml = .ok ls := by
  obtain ⟨raw, hraw⟩ : ∃ raw, textwrapWrap t mc = .ok raw :=
    ⟨_, textwrapWrap_ok t mc hmc⟩
  by_cases hnil : raw = []
  · subst hnil
    exact ⟨[t], wrap_lines_eq_of_wrap_nil t mc ml hraw hml⟩
  · rw [wrap_lines_eq_of_wrap_ok t mc ml raw hraw]
    simp only [if_neg hnil]
    by_cases hle : raw.length ≤ ml
    · rw [if_pos hle]; exact ⟨raw, rfl⟩
    · rw [if_neg hle]
      have hlen : (raw.take ml).length = ml := by rw [List.length_take]; omega
      have htr : raw.take ml ≠ [] := by
        intro h0; rw [h0] at hlen; simp at hlen; omega
      rw [if_neg htr]
      exact ⟨_, rfl⟩

/-- With a non-positive width, `wrap_lines` propagates `textwrap`'s
`ValueError`. -/
lemma wrap_lines_nonpos_err (t : List Char) (mc : Int) (ml : Nat) (hmc : mc ≤ 0) :
    wrap_lines t mc ml = .error (.valueError s!"invalid width {mc} (must be > 0)") := by
  unfold wrap_lines textwrapWrap wrapChunks
  rw [if_pos hmc]
  rfl

/-- `create_slide` succeeds when no background image is configured and the
configured line width is positive. -/
lemma create_slide_ok (env : Env) (title bullet : List Char) (cfg : Config)
    (hbg : cfg.background_image = none)
    (hmc : 1 ≤ cfg.max_chars_per_line.getD 22) :
    ∃ s, create_slide env title bullet cfg = .ok s := by
  obtain ⟨tl, htl⟩ := wrap_lines_ok title (cfg.max_chars_per_line.getD 22) 2 hmc (by norm_num)
  obtain ⟨bl, hbl⟩ := wrap_lines_ok bullet (cfg.max_chars_per_line.getD 22) 2 hmc (by norm_num)
  refine ⟨⟨cfg.size_width.getD 1080, cfg.size_height.getD 1920, cfg.safe_padding_px.getD 72,
    Background.white, load_font env cfg.font_title 72, load_font env cfg.font_body 56,
    cfg.fg_title.getD "#111111", cfg.fg_body.getD "#111111", tl, bl⟩, ?_⟩
  simp only [create_slide, hbg, ok_bind, htl, hbl]

/-- `create_slide` raises `textwrap`'s `ValueError` when no background
image is configured and the configured line width is not positive (the
title is wrapped first, so the error surfaces there). -/
lemma create_slide_nonpos_err (env : Env) (title bullet : List Char) (cfg : Config)
    (hbg : cfg.background_image = none)
    (hmc : cfg.max_chars_per_line.getD 22 ≤ 0) :
    create_slide env title bullet cfg =
      .error (.valueError
        s!"invalid width {cfg.max_chars_per_line.getD 22} (must be > 0)") := by
  have htl := wrap_lines_nonpos_err title (cfg.max_chars_per_line.getD 22) 2 hmc
  simp only [create_slide, hbg, ok_bind, htl, error_bind]

lemma load_config_ok (env : Env) (hcfg : env.pathExists configPath = true) :
    load_config env configPath = .ok env.configData := by
  unfold load_config
  rw [if_pos hcfg]

lemma load_config_missing (env : Env) (hcfg : env.pathExists configPath = false) :
    load_config env configPath =
      .error (.fileNotFound ("設定ファイルが見つかりません: " ++ String.mk configPath)) := by
  unfold load_config
  rw [if_neg (by simp [hcfg])]

lemma parse_ok_bullets_ne_nil (slo : List Char → Except PyError Frontmatter)
    (content : List Char)
    (fm : Frontmatter) (t : List Char) (bs : List (List Char))
    (h : parse_markdown slo content = .ok (fm, t, bs)) : bs ≠ [] := by
  rw [parse_markdown_spec] at h
  by_cases h1 : (mdParts content).length < 3
  · rw [if_pos h1] at h; exact absurd h (by simp)
  · rw [if_neg h1] at h
    split at h
    · exact absurd h (by simp)
    by_cases h2 : ∀ l ∈ splitlines (mdBody content), isHeadingLine l = false
    · rw [if_pos h2] at h; exact absurd h (by simp)
    · rw [if_neg h2] at h
      by_cases h3 : bulletsOf (splitlines (mdBody content)) = []
      · rw [if_pos h3] at h; exact absurd h (by simp)
      · rw [if_neg h3] at h
        injection h with h
        have hbs : bs = bulletsOf (splitlines (mdBody content)) :=
          (congrArg (fun pr => pr.2.2) h).symm
        rw [hbs]
        exact h3

lemma build_video_config_missing (env : Env) (p : List Char)
    (hcfg : env.pathExists configPath = false) :
    build_video env p =
      .error (.fileNotFound ("設定ファイルが見つかりません: " ++ String.mk configPath)) := by
  simp only [build_video, load_config_missing env hcfg, error_bind]

lemma build_video_parse_err (env : Env) (p : List Char) (e : PyError)
    (hcfg : env.pathExists configPath = true)
    (hparse : parse_markdown env.safeLoadFM (env.readFile p) = .error e) :
    build_video env p = .error e := by
  simp only [build_video, load_config_ok env hcfg, ok_bind, hparse, error_bind]

lemma build_video_wrap_err (env : Env) (p : List Char) (fm : Frontmatter)
    (t : List Char) (bs : List (List Char))
    (hcfg : env.pathExists configPath = true)
    (hparse : parse_markdown env.safeLoadFM (env.readFile p) = .ok (fm, t, bs))
    (hbg : env.configData.background_image = none)
    (hmc : env.configData.max_chars_per_line.getD 22 ≤ 0) :
    build_video env p = .error (.valueError
      s!"invalid width {env.configData.max_chars_per_line.getD 22} (must be > 0)") := by
  obtain ⟨b, rest, rfl⟩ : ∃ b rest, bs = b :: rest := by
    have hne := parse_ok_bullets_ne_nil env.safeLoadFM _ fm t bs hparse
    cases bs with
    | nil => exact absurd rfl hne
    | cons b rest => exact ⟨b, rest, rfl⟩
  have hmap := mapM_error_head (fun b => create_slide env t b env.configData) b rest _
    (create_slide_nonpos_err env t b env.configData hbg hmc)
  simp only [build_video, load_config_ok env hcfg, ok_bind, hparse, hmap, error_bind]

/-- `build_video` on the success path: config present, document parses,
no background image, positive wrap width, encoder succeeds.  The video
written holds one slide per bullet, lasts `slide_sec × #bullets`, and has
the background music attached exactly when `bgm` is configured, non-empty,
present on disk and loads cleanly — volume-scaled by `1/4` and set to the
video's duration; an audio failure is swallowed, leaving the video silent. -/
lemma build_video_success (env : Env) (p : List Char) (fm : Frontmatter)
    (t : List Char) (bs : List (List Char))
    (hcfg : env.pathExists configPath = true)
    (hparse : parse_markdown env.safeLoadFM (env.readFile p) = .ok (fm, t, bs))
    (hbg : env.configData.background_image = none)
    (hmc : 1 ≤ env.configData.max_chars_per_line.getD 22)
    (hwrite : env.writeErr (with_suffix p ".mp4".toList) = none) :
    ∃ slides : List Slide,
      build_video env p = .ok (with_suffix p ".mp4".toList,
        ⟨slides, (env.configData.slide_sec.getD 7) * bs.length,
          (match fm.bgm with
           | some bgm =>
             if bgm ≠ [] ∧ env.pathExists bgm = true ∧ env.audioErr bgm = none then
               some ⟨bgm, 1/4, (env.configData.slide_sec.getD 7) * bs.length⟩
             else none
           | none => none)⟩,
        (t, bs.length, env.configData.slide_sec.getD 7,
          (env.configData.slide_sec.getD 7) * bs.length, fm)) := by
  obtain ⟨ss, hss⟩ := mapM_ok (fun b => create_slide env t b env.configData) bs
    (fun b _ => create_slide_ok env t b env.configData hbg hmc)
  refine ⟨ss, ?_⟩
  simp only [build_video, load_config_ok env hcfg, ok_bind, hparse, hss, hwrite]
  cases hb : fm.bgm with
  | none => rfl
  | some bgm =>
    by_cases hbe : bgm = []
    · subst hbe
      simp
    · simp only [ne_eq, hbe, not_false_eq_true, true_and, if_true]
      cases he : env.pathExists bgm with
      | false => simp
      | true =>
        cases ha : env.audioErr bgm with
        | none => simp
        | some e => simp

lemma build_video_write_err (env : Env) (p : List Char) (fm : Frontmatter)
    (t : List Char) (bs : List (List Char)) (e : PyError)
    (hcfg : env.pathExists configPath = true)
    (hparse : parse_markdown env.safeLoadFM (env.readFile p) = .ok (fm, t, bs))
    (hbg : env.configData.background_image = none)
    (hmc : 1 ≤ env.configData.max_chars_per_line.getD 22)
    (hwrite : env.writeErr (with_suffix p ".mp4".toList) = some e) :
    build_video env p = .error e := by
  obtain ⟨ss, hss⟩ := mapM_ok (fun b => create_slide env t b env.configData) bs
    (fun b _ => create_slide_ok env t b env.configData hbg hmc)
  simp only [build_video, load_config_ok env hcfg, ok_bind, hparse, hss, hwrite]

/-! ### Claims C7–C9: fonts, audio and the CLI -/

/-- **C7, counterexample.** Exit status 4 is not reserved to malformed
source documents: with a well-formed document and a settings file that
sets `max_chars_per_line: 0`, text wrapping raises `ValueError`, `main`
catches it in the same `except ValueError` arm, and the process exits 4. -/
theorem claim_C7_exit4_counterexample :
    main_exit envZeroWidth ["render.py".toList, "habit.md".toList] = 4 ∧
    parse_markdown envZeroWidth.safeLoadFM (envZeroWidth.readFile "habit.md".toList) =
      .ok (⟨none, none⟩, "T".toList, ["a".toList]) :=
  ⟨by decide, by decide⟩

/-- **C7, amended.** The CLI terminates with: 1 when the argument count is
wrong (for every environment — the check precedes all other work); 2 when
the input file does not exist (for every environment — before the settings
file is consulted); 3 when the settings file is missing; 4 when a
`ValueError` escapes `build_video` — a malformed source document, or a
non-positive configured wrap width on a well-formed one; 0 when every
stage succeeds; and 5 when the encoder fails with an unclassified error.
(The success/failure conjuncts assume no background image is configured,
so that slide composition reaches text wrapping.) -/
theorem claim_C7_exit_codes (env : Env) (script p : List Char) :
    (∀ argv : List (List Char), argv.length ≠ 2 → main_exit env argv = 1)
    ∧ (env.pathExists p = false → main_exit env [script, p] = 2)
    ∧ (env.pathExists p = true → env.pathExists configPath = false →
        main_exit env [script, p] = 3)
    ∧ (env.pathExists p = true → env.pathExists configPath = true →
        (∃ m, parse_markdown env.safeLoadFM (env.readFile p) = .error (.valueError m)) →
        main_exit env [script, p] = 4)
    ∧ (env.pathExists p = true → env.pathExists configPath = true →
        env.configData.background_image = none →
        env.configData.max_chars_per_line.getD 22 ≤ 0 →
        (∃ d, parse_markdown env.safeLoadFM (env.readFile p) = .ok d) →
        main_exit env [script, p] = 4)
    ∧ (env.pathExists p = true → env.pathExists configPath = true →
        env.configData.background_image = none →
        1 ≤ env.configData.max_chars_per_line.getD 22 →
        env.writeErr (with_suffix p ".mp4".toList) = none →
        (∃ d, parse_markdown env.safeLoadFM (env.readFile p) = .ok d) →
        main_exit env [script, p] = 0)
    ∧ (env.pathExists p = true → env.pathExists configPath = true →
        env.configData.background_image = none →
        1 ≤ env.configData.max_chars_per_line.getD 22 →
        (∃ m, env.writeErr (with_suffix p ".mp4".toList) = some (.otherError m)) →
        (∃ d, parse_markdown env.safeLoadFM (env.readFile p) = .ok d) →
        main_exit env [script, p] = 5) := by
  have hgetD : ([script, p].getD 1 []) = p := rfl
  have hlen2 : ¬ ([script, p].length ≠ 2) := by simp
  refine ⟨?_, ?_, ?_, ?_, ?_, ?_, ?_⟩
  · intro argv h
    unfold main_exit
    rw [if_pos h]
  · intro h
    unfold main_exit
    rw [if_neg hlen2, hgetD, if_pos (by simp [h])]
  · intro hp hc
    unfold main_exit
    rw [if_neg hlen2, hgetD, if_neg (by simp [hp]),
      build_video_config_missing env p hc]
  · rintro hp hc ⟨m, hm⟩
    unfold main_exit
    rw [if_neg hlen2, hgetD, if_neg (by simp [hp]),
      build_video_parse_err env p _ hc hm]
  · rintro hp hc hbg hmc ⟨⟨fm, t, bs⟩, hd⟩
    unfold main_exit
    rw [if_neg hlen2, hgetD, if_neg (by simp [hp]),
      build_video_wrap_err env p fm t bs hc hd hbg hmc]
  · rintro hp hc hbg hmc hw ⟨⟨fm, t, bs⟩, hd⟩
    obtain ⟨ss, hok⟩ := build_video_success env p fm t bs hc hd hbg hmc hw
    unfold main_exit
    rw [if_neg hlen2, hgetD, if_neg (by simp [hp]), hok]
  · rintro hp hc hbg hmc ⟨m, hw⟩ ⟨⟨fm, t, bs⟩, hd⟩
    unfold main_exit
    rw [if_neg hlen2, hgetD, if_neg (by simp [hp]),
      build_video_write_err env p fm t bs _ hc hd hbg hmc hw]

/-- Witness for the amended C7: in `envBgm` (all files present, defaults
throughout, encoder succeeding) the run exits 0; and for every
environment, a three-element argument vector exits 1. -/
theorem claim_C7_exit_codes_witness :
    main_exit envBgm ["render.py".toList, "habit.md".toList] = 0 ∧
    main_exit envBgm ["render.py".toList, "a".toList, "b".toList] = 1 :=
  ⟨(claim_C7_exit_codes envBgm "render.py".toList "habit.md".toList).2.2.2.2.2.1
      (by decide) (by decide) (by decide) (by decide) (by decide)
      ⟨(⟨some "bgm.mp3".toList, none⟩, "T".toList, ["a".toList]), by decide⟩,
    (claim_C7_exit_codes envBgm "render.py".toList "habit.md".toList).1
      ["render.py".toList, "a".toList, "b".toList] (by decide)⟩

/-- **C8.** `load_font` never raises: an absent (or empty, hence falsy)
path yields the built-in default font; a path whose `truetype` load
succeeds yields the font at that path; and a `truetype` failure of any
kind falls back to the default font. -/
theorem claim_C8_load_font_fallback (env : Env) (size : Int) :
    load_font env none size = .defaultFont ∧
    load_font env (some []) size = .defaultFont ∧
    ∀ p : List Char, p ≠ [] →
      (env.truetypeErr p size = none → load_font env (some p) size = .truetype p size) ∧
      (∀ e, env.truetypeErr p size = some e → load_font env (some p) size = .defaultFont) := by
  refine ⟨rfl, rfl, ?_⟩
  intro p hp
  constructor
  · intro h
    simp only [load_font, if_neg hp, h]
  · intro e h
    simp only [load_font, if_neg hp, h]

/-- Witness for C8 in `envFont`: no path, a loadable path, and the failing
path `bad.ttf` all come back without raising. -/
theorem claim_C8_load_font_fallback_witness :
    load_font envFont none 16 = .defaultFont ∧
    load_font envFont (some "good.ttf".toList) 16 = .truetype "good.ttf".toList 16 ∧
    load_font envFont (some "bad.ttf".toList) 16 = .defaultFont :=
  ⟨(claim_C8_load_font_fallback envFont 16).1,
    ((claim_C8_load_font_fallback envFont 16).2.2 "good.ttf".toList (by decide)).1
      (by decide),
    ((claim_C8_load_font_fallback envFont 16).2.2 "bad.ttf".toList (by decide)).2
      (.otherError "cannot open resource") (by decide)⟩

/-- **C9.** On the success path of `build_video`, background music is
attached exactly when the frontmatter `bgm` path is given (non-empty) and
the file exists and the audio loads cleanly; the attached track is
volume-scaled by the fixed factor `1/4` and set to the total video
duration (`slide_sec × #bullets`).  Any audio failure is swallowed: the
call still returns the written video, merely without audio. -/
theorem claim_C9_bgm_attachment (env : Env) (p : List Char) (fm : Frontmatter)
    (t : List Char) (bs : List (List Char))
    (hcfg : env.pathExists configPath = true)
    (hparse : parse_markdown env.safeLoadFM (env.readFile p) = .ok (fm, t, bs))
    (hbg : env.configData.background_image = none)
    (hmc : 1 ≤ env.configData.max_chars_per_line.getD 22)
    (hwrite : env.writeErr (with_suffix p ".mp4".toList) = none) :
    ∃ slides : List Slide,
      build_video env p = .ok (with_suffix p ".mp4".toList,
        ⟨slides, (env.configData.slide_sec.getD 7) * bs.length,
          (match fm.bgm with
           | some bgm =>
             if bgm ≠ [] ∧ env.pathExists bgm = true ∧ env.audioErr bgm = none then
               some ⟨bgm, 1/4, (env.configData.slide_sec.getD 7) * bs.length⟩
             else none
           | none => none)⟩,
        (t, bs.length, env.configData.slide_sec.getD 7,
          (env.configData.slide_sec.getD 7) * bs.length, fm)) :=
  build_video_success env p fm t bs hcfg hparse hbg hmc hwrite

/-- Witness for C9 in `envBgm`: the configured `bgm.mp3` exists and loads,
so the written video carries it at volume factor `1/4` for the full
`7 × 1` seconds. -/
theorem claim_C9_bgm_attachment_witness :
    ∃ slides : List Slide,
      build_video envBgm "habit.md".toList = .ok ("habit.mp4".toList,
        ⟨slides, (7 : ℚ) * (1 : Nat),
          some ⟨"bgm.mp3".toList, 1/4, (7 : ℚ) * (1 : Nat)⟩⟩,
        ("T".toList, 1, (7 : ℚ), (7 : ℚ) * (1 : Nat),
          (⟨some "bgm.mp3".toList, none⟩ : Frontmatter))) := by
  have h := claim_C9_bgm_attachment envBgm "habit.md".toList
    ⟨some "bgm.mp3".toList, none⟩ "T".toList ["a".toList]
    (by decide) (by decide) (by decide) (by decide) (by decide)
  obtain ⟨slides, hs⟩ := h
  refine ⟨slides, ?_⟩
  rw [hs]
  rfl

end Render
